import Mathlib

/-!
Shallow embedding of the bourdain-image-worker ingest pipeline.

Each definition is translated from the TypeScript source:
  * `src/utils/rate-limit.ts`   : `initBucket`, `tryAcquire`, `getWaitTime`
  * `src/pipeline/fetch.ts`     : `fetchImage`, together with
    `isKnownErrorPayload` and `KNOWN_ERROR_PAYLOADS` from `src/types.ts`
  * `src/pipeline/decode.ts`    : `decodeImage`
  * `src/pipeline/detect-side.ts`: `detectSide` (border colorimetry is an
    oracle: the `BorderAnalysis` flags computed by `analyzePixelColors`)
  * `src/pipeline/vision.ts`    : `checkWithVision`, `shouldRunVisionCheck`
  * `src/storage/derivatives.ts`: `generateDerivatives` (the sharp resize
    and webp encode are oracles supplied by a `SharpOracle`)
  * `src/pipeline/index.ts`     : `processImage`, with the external world
    (catalog, HTTP, clock, randomness) supplied by a `PipelineEnv` and the
    catalog mutations and emitted events recorded as a trace of `Action`s.

JavaScript numbers are modelled as `ℚ` (all arithmetic the claims touch is
exact at this granularity), `Date.now()` timestamps as `ℤ` milliseconds,
and byte buffers by their observable attributes (length, hash oracle).
-/

namespace ImageWorker

/-! ### Basic data model (src/types.ts) -/

inductive Side where
  | front
  | back
  | unknown
deriving DecidableEq, Repr

def Side.str : Side → String
  | .front => "front"
  | .back => "back"
  | .unknown => "unknown"

structure SideDetectionResult where
  side : Side
  confidence : ℚ
  method : String
deriving DecidableEq, Repr

inductive Variant where
  | thumb
  | grid
  | detail
deriving DecidableEq, Repr

def Variant.str : Variant → String
  | .thumb => "thumb"
  | .grid => "grid"
  | .detail => "detail"

structure ImageSource where
  id : String
  name : String
  trustTier : ℕ
  maxRps : ℚ
deriving DecidableEq, Repr

structure ImageJob where
  cardId : String
  sourceUrl : String
  sourceId : Option String
  sourceName : Option String
  trustTier : Option ℕ
  cardNumber : Option String
  setCode : Option String

structure ImageMetadata where
  width : ℕ
  height : ℕ
  format : String
  size : ℕ
deriving DecidableEq, Repr

/-- Known error payloads table from `src/types.ts`: pokemontcg.io returns a
186316 byte file for missing images. -/
def KNOWN_ERROR_PAYLOADS : String → Option (List ℕ) :=
  fun sourceName => if sourceName = "pokemontcg_api" then some [186316] else none

/-! ### Configuration constants (src/config.ts) -/

def maxImagePixels : ℕ := 20000000

def minConfidenceForAssignment : ℚ := 85 / 100

def visionCheckLowerBound : ℚ := 6 / 10

def visionCheckUpperBound : ℚ := 9 / 10

structure DerivSettings where
  width : ℕ
  quality : ℕ

/-- Model of `config.derivativeSizes`. -/
def derivativeSizes : Variant → DerivSettings
  | .thumb => ⟨160, 75⟩
  | .grid => ⟨360, 80⟩
  | .detail => ⟨960, 80⟩

/-! ### Rate limiter (src/utils/rate-limit.ts)

The module-level `Map` of buckets is passed explicitly; `Date.now()` is an
explicit `now : ℤ` argument (milliseconds). -/

structure TokenBucket where
  tokens : ℚ
  lastRefill : ℤ
  maxTokens : ℚ
  refillRate : ℚ
deriving DecidableEq, Repr

def Buckets : Type := String → Option TokenBucket

def Buckets.set (bks : Buckets) (k : String) (b : TokenBucket) : Buckets :=
  fun k2 => if k2 = k then some b else bks k2

/-- Model of `initBucket(sourceId, maxRps)`: installs a full bucket of capacity
`maxRps`, refilling at `maxRps` tokens per second. -/
def initBucket (bks : Buckets) (sourceId : String) (maxRps : ℚ) (now : ℤ) : Buckets :=
  bks.set sourceId ⟨maxRps, now, maxRps, maxRps⟩

/-- Model of `tryAcquire(sourceId)`: refill by `Math.floor(elapsedSeconds * refillRate)`
(applied only when positive, capped at `maxTokens`), then debit one token if
any is available. Returns the acquired flag and the updated bucket map. -/
def tryAcquire (bks : Buckets) (sourceId : String) (now : ℤ) : Bool × Buckets :=
  match bks sourceId with
  | none => (true, bks)
  | some bucket =>
    let elapsed : ℚ := ((now - bucket.lastRefill : ℤ) : ℚ) / 1000
    let refill : ℤ := ⌊elapsed * bucket.refillRate⌋
    let bucket1 : TokenBucket :=
      if 0 < refill then
        { bucket with
            tokens := min bucket.maxTokens (bucket.tokens + (refill : ℚ)),
            lastRefill := now }
      else bucket
    if 0 < bucket1.tokens then
      (true, bks.set sourceId { bucket1 with tokens := bucket1.tokens - 1 })
    else
      (false, bks.set sourceId bucket1)

/-- Model of `getWaitTime(sourceId)`: it is `ceil(1000 / refillRate)` ms when the bucket is
empty, else 0. -/
def getWaitTime (bks : Buckets) (sourceId : String) : ℤ :=
  match bks sourceId with
  | none => 0
  | some bucket =>
    if 0 < bucket.tokens then 0
    else ⌈(1000 : ℚ) / bucket.refillRate⌉

/-! ### HTTP fetcher (src/pipeline/fetch.ts)

The network is an oracle: `Except String HttpResponse`, where `.error msg`
is the thrown network/abort error caught by the surrounding try. -/

structure HttpResponse where
  status : ℕ
  contentType : Option String
  bodyLen : ℕ

/-- Model of `response.ok` from the WHATWG fetch API: status in the 2xx range. -/
def HttpResponse.respOk (r : HttpResponse) : Bool :=
  decide (200 ≤ r.status) && decide (r.status < 300)

/-- Model of `isKnownErrorPayload(bytes, sourceName)`. -/
def isKnownErrorPayload (bytesLen : ℕ) (sourceName : String) : Bool :=
  match KNOWN_ERROR_PAYLOADS sourceName with
  | none => false
  | some sizes => sizes.contains bytesLen

structure FetchResult where
  ok : Bool
  bytesLen : Option ℕ
  contentType : Option String
  error : Option String
  httpStatus : Option ℕ
deriving DecidableEq, Repr

/-- Model of `fetchImage(url, sourceName)`. The body bytes are modelled by their
length (the only attribute this function inspects). -/
def fetchImage (resp : Except String HttpResponse) (sourceName : Option String) : FetchResult :=
  match resp with
  | .error msg => ⟨false, none, none, some msg, none⟩
  | .ok r =>
    if !r.respOk then
      ⟨false, none, none, some ("HTTP " ++ toString r.status), some r.status⟩
    else
      let contentType := r.contentType.getD ""
      if !contentType.startsWith "image/" then
        ⟨false, none, none, some ("Invalid content type: " ++ contentType), some r.status⟩
      else if (match sourceName with
               | some n => isKnownErrorPayload r.bodyLen n
               | none => false) then
        ⟨false, none, none, some "known_error_payload", some r.status⟩
      else
        ⟨true, some r.bodyLen, some contentType, none, some r.status⟩

/-! ### Image decoder (src/pipeline/decode.ts)

`sharp(buffer).metadata()` is an oracle: `.error` is the thrown decode
exception message, `.ok` the raw metadata (width/height possibly undefined,
with `0` also falsy in the `!metadata.width` check). -/

structure RawMeta where
  width : Option ℕ
  height : Option ℕ
  format : Option String

def decodeImage (meta : Except String RawMeta) (bufLen : ℕ) : Except String ImageMetadata :=
  match meta with
  | .error msg => .error msg
  | .ok m =>
    match m.width, m.height with
    | some w, some h =>
      if w = 0 || h = 0 then .error "Could not determine image dimensions"
      else if maxImagePixels < w * h then
        .error ("Image too large: " ++ toString (w * h) ++ " pixels (max: " ++
          toString maxImagePixels ++ ")")
      else .ok ⟨w, h, m.format.getD "unknown", bufLen⟩
    | _, _ => .error "Could not determine image dimensions"

/-! ### Side detector (src/pipeline/detect-side.ts)

The sharp downscale and per-pixel colorimetry of `analyzeBorderColors` are
an oracle: `none` means the sharp call threw (the catch path), `some ba`
the three boolean verdicts computed by `analyzePixelColors`. -/

structure BorderAnalysis where
  isBlueBack : Bool
  hasYellowBorder : Bool
  hasVariedColors : Bool

/-- Model of `detectSide(buffer, metadata)`: aspect-ratio bonus, border-color
adjustment, then the score-to-side decision. -/
def detectSide (width height : ℕ) (ba : Option BorderAnalysis) : SideDetectionResult :=
  match ba with
  | none => ⟨Side.unknown, 1 / 2, "heuristic"⟩
  | some ba =>
    let aspect : ℚ := (width : ℚ) / (height : ℚ)
    let aspectScore : ℚ := if |aspect - 716 / 1000| ≤ 8 / 100 then 1 / 5 else 0
    let score : ℚ := aspectScore +
      (if ba.isBlueBack then -(3 / 5)
       else if ba.hasYellowBorder then 3 / 10
       else if ba.hasVariedColors then 1 / 5
       else 0)
    if 3 / 10 ≤ score then ⟨Side.front, min (95 / 100) (1 / 2 + score), "heuristic"⟩
    else if score ≤ -(3 / 10) then ⟨Side.back, min (95 / 100) (1 / 2 + |score|), "heuristic"⟩
    else ⟨Side.unknown, 1 / 2, "heuristic"⟩

/-! ### Vision checker (src/pipeline/vision.ts) -/

/-- Outcome of the external vision call, as observed by `checkWithVision`:
missing API key, non-2xx response, a parsed first-choice content string, or
a thrown exception. -/
inductive VisionOutcome where
  | noApiKey
  | requestFailed
  | reply (content : String)
  | exn

/-- Tests whether `pat` occurs as a contiguous run at the start of `l`. -/
def listStartsWith : List Char → List Char → Bool
  | [], _ => true
  | _ :: _, [] => false
  | p :: ps, c :: cs => p = c && listStartsWith ps cs

/-- Tests whether `pat` occurs as a contiguous run somewhere in `l`
(JavaScript `String.prototype.includes`). -/
def listHasSub (pat : List Char) : List Char → Bool
  | [] => listStartsWith pat []
  | c :: rest => listStartsWith pat (c :: rest) || listHasSub pat rest

def strIncludes (s pat : String) : Bool := listHasSub pat.toList s.toList

/-- Model of `checkWithVision(buffer, job, trustTier)`: answer parsing. The request
construction is external; `outcome` is what the code observes. -/
def checkWithVision (outcome : VisionOutcome) : SideDetectionResult :=
  match outcome with
  | .noApiKey => ⟨Side.unknown, 1 / 2, "vision"⟩
  | .requestFailed => ⟨Side.unknown, 1 / 2, "vision"⟩
  | .exn => ⟨Side.unknown, 1 / 2, "vision"⟩
  | .reply content =>
    let answer := content.trim.toUpper
    if strIncludes answer "FRONT" then ⟨Side.front, 95 / 100, "vision"⟩
    else if strIncludes answer "BACK" then ⟨Side.back, 95 / 100, "vision"⟩
    else if strIncludes answer "WRONG_CARD" then ⟨Side.unknown, 3 / 10, "vision"⟩
    else ⟨Side.unknown, 1 / 2, "vision"⟩

/-- Model of `shouldRunVisionCheck(trustTier, currentConfidence, sampleRate)`:
`randomBelowSample` is the oracle for `Math.random() < sampleRate`. -/
def shouldRunVisionCheck (trustTier : ℕ) (currentConfidence : ℚ)
    (randomBelowSample : Bool) : Bool :=
  if trustTier = 1 then false
  else if trustTier = 3 then true
  else if visionCheckLowerBound ≤ currentConfidence ∧
          currentConfidence < visionCheckUpperBound then true
  else randomBelowSample

/-! ### Derivative generator (src/storage/derivatives.ts, src/utils/hash.ts) -/

/-- Model of `getDerivativeStoragePath(sha256, variant)`; the inner shard helper is
`sha256.substring(0, 2)`. -/
def getDerivativeStoragePath (sha256 : String) (variant : String) : String :=
  "derivatives/" ++ sha256.take 2 ++ "/" ++ sha256 ++ "/" ++ variant ++ ".webp"

structure DerivativeResult where
  variant : Variant
  width : ℕ
  height : ℕ
  bytes : ℕ
  storagePath : String
deriving DecidableEq, Repr

/-- Oracle for the sharp resize/webp pipeline of one variant: given the
requested resize width, the measured metadata of the processed buffer
(`none` = undefined) and its byte size; `resizeErr` is a thrown error. -/
structure SharpOracle where
  resizedWidth : Variant → ℕ → Option ℕ
  resizedHeight : Variant → ℕ → Option ℕ
  resizedBytes : Variant → ℕ → ℕ
  resizeErr : Variant → Option String

/-- JavaScript `x || fallback` on an optional number: `undefined` and `0`
are both falsy. -/
def jsOrNat (x : Option ℕ) (fallback : ℕ) : ℕ :=
  match x with
  | some w => if w = 0 then fallback else w
  | none => fallback

def generateDerivAux (so : SharpOracle) (sha256 : String) (originalWidth : ℕ) :
    List Variant → Except String (List DerivativeResult)
  | [] => .ok []
  | v :: rest =>
    let settings := derivativeSizes v
    let targetWidth := min settings.width originalWidth
    match so.resizeErr v with
    | some msg => .error msg
    | none =>
      let d : DerivativeResult :=
        ⟨v, jsOrNat (so.resizedWidth v targetWidth) targetWidth,
         jsOrNat (so.resizedHeight v targetWidth) 0,
         so.resizedBytes v targetWidth,
         getDerivativeStoragePath sha256 v.str⟩
      match generateDerivAux so sha256 originalWidth rest with
      | .error msg => .error msg
      | .ok ds => .ok (d :: ds)

/-- Model of `generateDerivatives(buffer, sha256, originalWidth)`: the fixed variant
order `thumb, grid, detail`, each with `targetWidth = min(settings.width,
originalWidth)`; a failing variant aborts the whole generation. -/
def generateDerivatives (so : SharpOracle) (sha256 : String) (originalWidth : ℕ) :
    Except String (List DerivativeResult) :=
  generateDerivAux so sha256 originalWidth [Variant.thumb, Variant.grid, Variant.detail]

/-! ### Pipeline orchestrator (src/pipeline/index.ts)

`processImage(job)` composed against an explicit environment of external
observations. Catalog mutations and emitted ingest events are recorded in
order as a trace of `Action`s; calls into the pure stages are recorded as
markers so that short-circuits are observable. -/

/-- JavaScript template rendering of the numbers the pipeline prints: all
reachable confidences are rationals with denominator dividing 100, printed
without trailing zeros (`0.5`, `0.95`). -/
def decimal2Str (q : ℚ) : String :=
  let n : ℤ := ⌊q * 100⌋
  let ip := n / 100
  let fp := (n % 100).toNat
  if fp = 0 then toString ip
  else if fp % 10 = 0 then toString ip ++ "." ++ toString (fp / 10)
  else if fp < 10 then toString ip ++ ".0" ++ toString fp
  else toString ip ++ "." ++ toString fp

/-- Model of `Number.prototype.toFixed(2)`: round half up to two decimals, always
printing both digits. -/
def toFixed2 (q : ℚ) : String :=
  let n : ℤ := ⌊q * 100 + 1 / 2⌋
  let ip := n / 100
  let fp := (n % 100).toNat
  toString ip ++ "." ++ (if fp < 10 then "0" ++ toString fp else toString fp)

def boolStr (b : Bool) : String := if b then "true" else "false"

structure IngestEvent where
  eventType : String
  message : Option String
  httpStatus : Option ℕ
deriving DecidableEq, Repr

/-- One observable effect of the pipeline, in emission order. `logEvent` is
`logIngestEvent`; the catalog mutations carry the fields the claims consult;
the bare markers record invocations of the pure/CPU stages (event metadata
payloads are elided). -/
inductive Action where
  | logEvent (e : IngestEvent)
  | createImage (sha256 status : String) (detectedSide : Side) (sideConfidence : ℚ)
      (isCollage : Bool)
  | updateStatus (imageId status : String)
  | createDerivRecord (imageId : String) (variant : Variant) (width height bytes : ℕ)
      (storagePath : String)
  | assignCard (cardId imageId role : String)
  | decodeCall
  | detectSideCall
  | detectCollageCall
  | visionCall
  | generateDerivativesCall
  | uploadCall
deriving DecidableEq, Repr

structure ProcessResult where
  status : String
  imageId : Option String := none
  sha256 : Option String := none
  detectedSide : Option Side := none
  confidence : Option ℚ := none
  error : Option String := none
deriving DecidableEq, Repr

/-- All external observations one `processImage` run can make. Catalog
reads, the clock, randomness, the network, and the sharp library are
oracles; the per-call error fields model the corresponding awaited calls
throwing (`none` = the call succeeded). -/
structure PipelineEnv where
  sourceById : String → Option ImageSource
  sourceByName : String → Option ImageSource
  nowInit : ℤ
  nowAcquire : ℤ
  httpResp : Except String HttpResponse
  sha256 : String
  existing : Option String
  assignErrDedup : Option String
  decodeMeta : Except String RawMeta
  borderAnalysis : Option BorderAnalysis
  isCollage : Bool
  visionSample : Bool
  visionOutcome : VisionOutcome
  imageId : String
  createImageErr : Option String
  sharp : SharpOracle
  uploadErrs : Variant → Option String
  derivRecordErrs : Variant → Option String
  assignErr : Option String

/-- Source resolution: by id when `job.sourceId` is set and found, else by
name when `job.sourceName` is set. -/
def resolveSource (env : PipelineEnv) (job : ImageJob) : Option ImageSource :=
  match job.sourceId with
  | some sid =>
    match env.sourceById sid with
    | some s => some s
    | none => job.sourceName.bind env.sourceByName
  | none => job.sourceName.bind env.sourceByName

/-- Computes `trustTier = source?.trustTier ?? job.trustTier ?? 3`. -/
def resolvedTrustTier (env : PipelineEnv) (job : ImageJob) : ℕ :=
  match resolveSource env job with
  | some s => s.trustTier
  | none => job.trustTier.getD 3

/-- Computes `sourceName = source?.name ?? job.sourceName ?? 'unknown'`. -/
def resolvedSourceName (env : PipelineEnv) (job : ImageJob) : String :=
  match resolveSource env job with
  | some s => s.name
  | none => job.sourceName.getD "unknown"

/-- The top-level catch handler: log `fetch_failed` and return failed. -/
def catchActs (msg : String) : List Action :=
  [Action.logEvent ⟨"fetch_failed", some msg, none⟩]

def failedResult (msg : String) : ProcessResult :=
  { status := "failed", error := some msg }

/-- The side result entering the assignment gate: the heuristic result,
overridden by the vision result when the vision check ran and reported a
strictly higher confidence. -/
def finalSideResult (env : PipelineEnv) (trustTier : ℕ) (meta : ImageMetadata) :
    SideDetectionResult :=
  let side1 := detectSide meta.width meta.height env.borderAnalysis
  if shouldRunVisionCheck trustTier side1.confidence env.visionSample then
    let vr := checkWithVision env.visionOutcome
    if side1.confidence < vr.confidence then vr else side1
  else side1

/-- Model of `uploadDerivatives`: first upload error in derivative order, if any. -/
def uploadAll (env : PipelineEnv) : List DerivativeResult → Option String
  | [] => none
  | d :: rest =>
    match env.uploadErrs d.variant with
    | some msg => some msg
    | none => uploadAll env rest

/-- The `createDerivativeRecord` loop: records inserted before the first
failure, and the first failure message if any. -/
def recordDerivs (env : PipelineEnv) (imageId : String) :
    List DerivativeResult → List Action × Option String
  | [] => ([], none)
  | d :: rest =>
    match env.derivRecordErrs d.variant with
    | some msg => ([], some msg)
    | none =>
      let p := recordDerivs env imageId rest
      (Action.createDerivRecord imageId d.variant d.width d.height d.bytes d.storagePath
        :: p.1, p.2)

/-- Step 14 of the pipeline: the assignment gate and the two returns. The
returned trace is the suffix of actions from this point on. -/
def gateAndReturn (env : PipelineEnv) (job : ImageJob) (sha : String)
    (side2 : SideDetectionResult) (isCollage : Bool) : ProcessResult × List Action :=
  if side2.side = Side.front ∧ minConfidenceForAssignment ≤ side2.confidence ∧
      isCollage = false then
    match env.assignErr with
    | some msg => (failedResult msg, catchActs msg)
    | none =>
      ({ status := "completed", imageId := some env.imageId, sha256 := some sha,
         detectedSide := some side2.side, confidence := some side2.confidence },
       [Action.assignCard job.cardId env.imageId "primary_front",
        Action.logEvent ⟨"assigned", some "primary_front", none⟩])
  else
    ({ status := "rejected", imageId := some env.imageId, sha256 := some sha,
       detectedSide := some side2.side, confidence := some side2.confidence,
       error := some ("Not assigned: side=" ++ side2.side.str ++ ", confidence=" ++
         toFixed2 side2.confidence ++ ", isCollage=" ++ boolStr isCollage) },
     [Action.logEvent ⟨"rejected",
        some ("side=" ++ side2.side.str ++ ", confidence=" ++
          decimal2Str side2.confidence ++ ", isCollage=" ++ boolStr isCollage),
        none⟩])

/-- Steps 8 (validation_passed event) through 14: image record insert,
derivatives, uploads, derivative records, status update, gate. Any thrown
stage jumps to the top-level catch. -/
def persistStage (env : PipelineEnv) (job : ImageJob) (sha : String)
    (meta : ImageMetadata) (side2 : SideDetectionResult) (isCollage : Bool) :
    ProcessResult × List Action :=
  let ev1 : List Action :=
    [Action.logEvent ⟨"validation_passed", none, none⟩,
     Action.logEvent ⟨"processing_started", none, none⟩]
  match env.createImageErr with
  | some msg => (failedResult msg, ev1 ++ catchActs msg)
  | none =>
    let imageId := env.imageId
    let ev2 := ev1 ++
      [Action.createImage sha "processing" side2.side side2.confidence isCollage,
       Action.generateDerivativesCall]
    match generateDerivatives env.sharp sha meta.width with
    | .error msg => (failedResult msg, ev2 ++ catchActs msg)
    | .ok derivs =>
      let ev3 := ev2 ++
        [Action.logEvent ⟨"derivatives_generated", none, none⟩, Action.uploadCall]
      match uploadAll env derivs with
      | some msg => (failedResult msg, ev3 ++ catchActs msg)
      | none =>
        let ev4 := ev3 ++ [Action.logEvent ⟨"upload_completed", none, none⟩]
        let rec1 := recordDerivs env imageId derivs
        match rec1.2 with
        | some msg => (failedResult msg, ev4 ++ rec1.1 ++ catchActs msg)
        | none =>
          let ev5 := ev4 ++ rec1.1 ++
            [Action.updateStatus imageId "completed",
             Action.logEvent ⟨"processing_completed", none, none⟩]
          let p := gateAndReturn env job sha side2 isCollage
          (p.1, ev5 ++ p.2)

/-- Steps 6 and 7: heuristic side detection, collage detection, optional
vision override, then persistence. -/
def classifyStage (env : PipelineEnv) (job : ImageJob) (trustTier : ℕ) (sha : String)
    (meta : ImageMetadata) : ProcessResult × List Action :=
  let side1 := detectSide meta.width meta.height env.borderAnalysis
  let side2 := finalSideResult env trustTier meta
  let pre : List Action := [Action.detectSideCall, Action.detectCollageCall] ++
    (if shouldRunVisionCheck trustTier side1.confidence env.visionSample
     then [Action.visionCall] else [])
  let p := persistStage env job sha meta side2 env.isCollage
  (p.1, pre ++ p.2)

/-- Steps 4 and 5: SHA-256 dedup probe and decode, then classification. -/
def dedupStage (env : PipelineEnv) (job : ImageJob) (trustTier : ℕ) (bodyLen : ℕ) :
    ProcessResult × List Action :=
  let sha := env.sha256
  match env.existing with
  | some existingId =>
    let ev : List Action := [Action.logEvent ⟨"deduplicated", none, none⟩]
    match env.assignErrDedup with
    | some msg => (failedResult msg, ev ++ catchActs msg)
    | none =>
      ({ status := "deduplicated", imageId := some existingId, sha256 := some sha },
       ev ++ [Action.assignCard job.cardId existingId "primary_front"])
  | none =>
    match decodeImage env.decodeMeta bodyLen with
    | .error msg =>
      (failedResult msg,
       [Action.decodeCall, Action.logEvent ⟨"validation_failed", some msg, none⟩])
    | .ok meta =>
      let p := classifyStage env job trustTier sha meta
      (p.1, Action.decodeCall :: p.2)

/-- Step 3 onwards: fetch, then dedup / decode / classify / persist. -/
def fetchOnward (env : PipelineEnv) (job : ImageJob) : ProcessResult × List Action :=
  let fr := fetchImage env.httpResp (some (resolvedSourceName env job))
  match fr.ok, fr.bytesLen with
  | true, some bodyLen =>
    let ev : List Action := [Action.logEvent ⟨"fetch_completed", none, fr.httpStatus⟩]
    let p := dedupStage env job (resolvedTrustTier env job) bodyLen
    (p.1, ev ++ p.2)
  | _, _ =>
    ({ status := "failed", error := fr.error },
     [Action.logEvent ⟨"fetch_failed", fr.error, fr.httpStatus⟩])

/-- Model of `processImage(job)`: the full orchestrator. Returns the result, the
ordered trace of catalog mutations / events / stage markers, and the rate
limiter state after the run. -/
def processImage (env : PipelineEnv) (job : ImageJob) (bks : Buckets) :
    ProcessResult × List Action × Buckets :=
  let ev0 : List Action := [Action.logEvent ⟨"fetch_started", some job.sourceUrl, none⟩]
  match resolveSource env job with
  | some s =>
    let bks1 := initBucket bks s.id s.maxRps env.nowInit
    let acq := tryAcquire bks1 s.id env.nowAcquire
    if acq.1 then
      let p := fetchOnward env job
      (p.1, ev0 ++ p.2, acq.2)
    else
      let waitTime := getWaitTime acq.2 s.id
      ({ status := "rate_limited",
         error := some ("Rate limited, retry after " ++ toString waitTime ++ "ms") },
       ev0, acq.2)
  | none =>
    let p := fetchOnward env job
    (p.1, ev0 ++ p.2, bks)

/-! ### Concrete instances used by witnesses -/

/-- A tier-1 source with `maxRps = 1`. -/
def srcW : ImageSource := ⟨"s1", "srcA", 1, 1⟩

/-- Sharp oracle for witnesses: resize yields exactly the requested width. -/
def sharpW : SharpOracle :=
  ⟨fun _ r => some r, fun _ _ => some 10, fun _ _ => 100, fun _ => none⟩

def respW : HttpResponse := ⟨200, some "image/jpeg", 1000⟩

def jobW : ImageJob := ⟨"c1", "http://x/a.jpg", some "s1", none, none, none, none⟩

def emptyBuckets : Buckets := fun _ => none

/-- A fully successful run: tier-1 source, 734×1024 yellow-border front. -/
def envHappy : PipelineEnv where
  sourceById := fun k => if k = "s1" then some srcW else none
  sourceByName := fun _ => none
  nowInit := 0
  nowAcquire := 0
  httpResp := .ok respW
  sha256 := "abcd1234"
  existing := none
  assignErrDedup := none
  decodeMeta := .ok ⟨some 734, some 1024, some "jpeg"⟩
  borderAnalysis := some ⟨false, true, false⟩
  isCollage := false
  visionSample := false
  visionOutcome := .noApiKey
  imageId := "img1"
  createImageErr := none
  sharp := sharpW
  uploadErrs := fun _ => none
  derivRecordErrs := fun _ => none
  assignErr := none

/-- Fetch fails with a caught network error; used for the rate-limit
scenario where the interesting part is over before the fetch. -/
def envNetErr : PipelineEnv :=
  { envHappy with httpResp := .error "network error" }

/-- The same environment 100 ms later (spec scenario 3: two back-to-back
jobs within 100 ms). -/
def envNetErrLater : PipelineEnv :=
  { envNetErr with nowInit := 100, nowAcquire := 100 }

/-- A successful run whose border analysis finds nothing: side stays
`unknown` at confidence 0.5, so the assignment gate rejects. -/
def envRej : PipelineEnv :=
  { envHappy with borderAnalysis := some ⟨false, false, false⟩ }

/-- A dedup hit for the happy-path bytes. -/
def envDedup : PipelineEnv :=
  { envHappy with existing := some "imgOld" }

/-! ### Theorems -/

theorem buckets_set_self (bks : Buckets) (k : String) (b : TokenBucket) :
    Buckets.set bks k b k = some b := by
  simp [Buckets.set]

/-- After `initBucket`, the immediately following `tryAcquire` (at any
non-earlier instant) succeeds whenever `maxRps ≥ 1`: the fresh bucket
starts full. -/
theorem acquire_after_init (bks : Buckets) (sid : String) (maxRps : ℚ)
    (now now2 : ℤ) (h1 : 1 ≤ maxRps) (h2 : now ≤ now2) :
    (tryAcquire (initBucket bks sid maxRps now) sid now2).1 = true := by
  simp only [initBucket, tryAcquire, buckets_set_self]
  set fl : ℤ := ⌊((now2 - now : ℤ) : ℚ) / 1000 * maxRps⌋ with hfldef
  have hel : (0 : ℚ) ≤ ((now2 - now : ℤ) : ℚ) / 1000 * maxRps := by
    apply mul_nonneg _ (by linarith)
    apply div_nonneg _ (by norm_num)
    exact_mod_cast Int.sub_nonneg.mpr h2
  have hfl : 0 ≤ fl := Int.le_floor.mpr (by exact_mod_cast hel)
  have htk : (1 : ℚ) ≤ (if 0 < fl then
      (⟨min maxRps (maxRps + (fl : ℚ)), now2, maxRps, maxRps⟩ : TokenBucket)
    else ⟨maxRps, now, maxRps, maxRps⟩).tokens := by
    split_ifs with h
    · refine le_min h1 ?_
      have : (0 : ℚ) ≤ (fl : ℚ) := by exact_mod_cast hfl
      linarith
    · exact h1
  rw [if_pos (lt_of_lt_of_le zero_lt_one htk)]

theorem gateAndReturn_status_ne (env : PipelineEnv) (job : ImageJob) (sha : String)
    (side2 : SideDetectionResult) (c : Bool) :
    (gateAndReturn env job sha side2 c).1.status ≠ "rate_limited" := by
  unfold gateAndReturn
  split_ifs with h
  · cases env.assignErr <;> simp [failedResult]
  · simp

theorem persistStage_status_ne (env : PipelineEnv) (job : ImageJob) (sha : String)
    (meta : ImageMetadata) (side2 : SideDetectionResult) (c : Bool) :
    (persistStage env job sha meta side2 c).1.status ≠ "rate_limited" := by
  cases hci : env.createImageErr with
  | some msg => simp [persistStage, hci, failedResult]
  | none =>
    cases hgen : generateDerivatives env.sharp sha meta.width with
    | error msg => simp [persistStage, hci, hgen, failedResult]
    | ok derivs =>
      cases hup : uploadAll env derivs with
      | some msg => simp [persistStage, hci, hgen, hup, failedResult]
      | none =>
        cases hrec : (recordDerivs env env.imageId derivs).2 with
        | some msg => simp [persistStage, hci, hgen, hup, hrec, failedResult]
        | none =>
          simpa [persistStage, hci, hgen, hup, hrec] using
            gateAndReturn_status_ne env job sha side2 c

theorem classifyStage_status_ne (env : PipelineEnv) (job : ImageJob) (tt : ℕ)
    (sha : String) (meta : ImageMetadata) :
    (classifyStage env job tt sha meta).1.status ≠ "rate_limited" := by
  simpa [classifyStage] using
    persistStage_status_ne env job sha meta (finalSideResult env tt meta) env.isCollage

theorem dedupStage_status_ne (env : PipelineEnv) (job : ImageJob) (tt : ℕ)
    (bodyLen : ℕ) :
    (dedupStage env job tt bodyLen).1.status ≠ "rate_limited" := by
  cases hex : env.existing with
  | some existingId =>
    cases had : env.assignErrDedup with
    | some msg => simp [dedupStage, hex, had, failedResult]
    | none => simp [dedupStage, hex, had]
  | none =>
    cases hdec : decodeImage env.decodeMeta bodyLen with
    | error msg => simp [dedupStage, hex, hdec, failedResult]
    | ok meta =>
      simpa [dedupStage, hex, hdec] using
        classifyStage_status_ne env job tt env.sha256 meta

theorem fetchOnward_status_ne (env : PipelineEnv) (job : ImageJob) :
    (fetchOnward env job).1.status ≠ "rate_limited" := by
  cases hok : (fetchImage env.httpResp (some (resolvedSourceName env job))).ok with
  | false => simp [fetchOnward, hok]
  | true =>
    cases hbl : (fetchImage env.httpResp (some (resolvedSourceName env job))).bytesLen with
    | none => simp [fetchOnward, hok, hbl]
    | some bodyLen =>
      simpa [fetchOnward, hok, hbl] using
        dedupStage_status_ne env job (resolvedTrustTier env job) bodyLen

/-- C3: `initBucket` immediately followed by `tryAcquire` always succeeds
when `maxRps ≥ 1` (the bucket is installed full), and consequently the
`rate_limited` branch of `processImage` is unreachable whenever the
resolved source has `maxRps ≥ 1` (the pipeline re-inits the bucket before
every acquire). -/
theorem initBucket_tryAcquire_always_allows :
    (∀ (bks : Buckets) (sid : String) (maxRps : ℚ) (now now2 : ℤ),
        1 ≤ maxRps → now ≤ now2 →
        (tryAcquire (initBucket bks sid maxRps now) sid now2).1 = true) ∧
    (∀ (env : PipelineEnv) (job : ImageJob) (bks : Buckets),
        (∀ s, resolveSource env job = some s → 1 ≤ s.maxRps) →
        env.nowInit ≤ env.nowAcquire →
        (processImage env job bks).1.status ≠ "rate_limited") := by
  constructor
  · exact fun bks sid maxRps now now2 h1 h2 => acquire_after_init bks sid maxRps now now2 h1 h2
  · intro env job bks hsrc hmono
    cases hs : resolveSource env job with
    | none =>
      simpa [processImage, hs] using fetchOnward_status_ne env job
    | some s =>
      have hacq := acquire_after_init bks s.id s.maxRps env.nowInit env.nowAcquire
        (hsrc s hs) hmono
      simpa [processImage, hs, hacq] using fetchOnward_status_ne env job

/-- Witness for C3: a fresh `maxRps = 1` bucket acquired at the same
instant, and the happy-path pipeline run avoiding `rate_limited`. -/
theorem initBucket_tryAcquire_always_allows_witness :
    (tryAcquire (initBucket emptyBuckets "s1" 1 0) "s1" 0).1 = true ∧
      (processImage envHappy jobW emptyBuckets).1.status ≠ "rate_limited" := by
  constructor
  · exact initBucket_tryAcquire_always_allows.1 emptyBuckets "s1" 1 0 0
      (by decide!) (by decide)
  · exact initBucket_tryAcquire_always_allows.2 envHappy jobW emptyBuckets
      (fun s hs => by
        rw [show resolveSource envHappy jobW = some srcW by decide!] at hs
        cases hs
        exact le_refl 1)
      (by decide)

theorem recordDerivs_no_update (env : PipelineEnv) (imageId : String) :
    ∀ (ds : List DerivativeResult) (i s : String),
      Action.updateStatus i s ∈ (recordDerivs env imageId ds).1 → False := by
  intro ds
  induction ds with
  | nil => intro i s h; simp [recordDerivs] at h
  | cons d rest ih =>
    intro i s h
    cases hdr : env.derivRecordErrs d.variant with
    | some msg => simp [recordDerivs, hdr] at h
    | none =>
      simp only [recordDerivs, hdr, List.mem_cons, reduceCtorEq, false_or] at h
      exact ih i s h

theorem gateAndReturn_no_update (env : PipelineEnv) (job : ImageJob) (sha : String)
    (side2 : SideDetectionResult) (c : Bool) (i s : String) :
    Action.updateStatus i s ∈ (gateAndReturn env job sha side2 c).2 → False := by
  intro hmem
  by_cases hgate : side2.side = Side.front ∧
      minConfidenceForAssignment ≤ side2.confidence ∧ c = false
  · rcases henv : env.assignErr with _ | msg <;>
      simp [gateAndReturn, hgate, henv, catchActs] at hmem
  · simp [gateAndReturn, hgate, catchActs] at hmem

theorem persistStage_update (env : PipelineEnv) (job : ImageJob) (sha : String)
    (meta : ImageMetadata) (side2 : SideDetectionResult) (c : Bool) (i s : String) :
    Action.updateStatus i s ∈ (persistStage env job sha meta side2 c).2 →
    s = "completed" := by
  intro hmem
  cases hci : env.createImageErr with
  | some msg => simp [persistStage, hci, catchActs] at hmem
  | none =>
    cases hgen : generateDerivatives env.sharp sha meta.width with
    | error msg => simp [persistStage, hci, hgen, catchActs] at hmem
    | ok derivs =>
      cases hup : uploadAll env derivs with
      | some msg => simp [persistStage, hci, hgen, hup, catchActs] at hmem
      | none =>
        cases hrec : (recordDerivs env env.imageId derivs).2 with
        | some msg =>
          simp [persistStage, hci, hgen, hup, hrec, catchActs] at hmem
          exact (recordDerivs_no_update env env.imageId derivs i s hmem).elim
        | none =>
          simp [persistStage, hci, hgen, hup, hrec] at hmem
          rcases hmem with hmem | hmem | hmem
          · exact (recordDerivs_no_update env env.imageId derivs i s hmem).elim
          · exact hmem.2
          · exact (gateAndReturn_no_update env job sha side2 c i s hmem).elim

theorem classifyStage_update (env : PipelineEnv) (job : ImageJob) (tt : ℕ)
    (sha : String) (meta : ImageMetadata) (i s : String) :
    Action.updateStatus i s ∈ (classifyStage env job tt sha meta).2 →
    s = "completed" := by
  intro hmem
  by_cases hrun : shouldRunVisionCheck tt
      (detectSide meta.width meta.height env.borderAnalysis).confidence
      env.visionSample = true
  · simp only [classifyStage, hrun, if_true, List.cons_append, List.nil_append,
      List.singleton_append, List.mem_cons, reduceCtorEq, false_or] at hmem
    exact persistStage_update env job sha meta _ env.isCollage i s hmem
  · simp only [classifyStage, hrun, if_false, Bool.false_eq_true,
      List.cons_append, List.nil_append, List.mem_cons, reduceCtorEq,
      false_or] at hmem
    exact persistStage_update env job sha meta _ env.isCollage i s hmem

theorem dedupStage_update (env : PipelineEnv) (job : ImageJob) (tt : ℕ)
    (bodyLen : ℕ) (i s : String) :
    Action.updateStatus i s ∈ (dedupStage env job tt bodyLen).2 →
    s = "completed" := by
  intro hmem
  cases hex : env.existing with
  | some existingId =>
    rcases had : env.assignErrDedup with _ | msg <;>
      simp [dedupStage, hex, had, catchActs] at hmem
  | none =>
    cases hdec : decodeImage env.decodeMeta bodyLen with
    | error msg => simp [dedupStage, hex, hdec] at hmem
    | ok meta =>
      simp only [dedupStage, hex, hdec, List.mem_cons, reduceCtorEq, false_or] at hmem
      exact classifyStage_update env job tt env.sha256 meta i s hmem

theorem fetchOnward_update (env : PipelineEnv) (job : ImageJob) (i s : String) :
    Action.updateStatus i s ∈ (fetchOnward env job).2 → s = "completed" := by
  intro hmem
  cases hok : (fetchImage env.httpResp (some (resolvedSourceName env job))).ok with
  | false => simp [fetchOnward, hok] at hmem
  | true =>
    cases hbl : (fetchImage env.httpResp (some (resolvedSourceName env job))).bytesLen with
    | none => simp [fetchOnward, hok, hbl] at hmem
    | some bodyLen =>
      simp only [fetchOnward, hok, hbl, List.cons_append, List.nil_append,
        List.mem_cons, reduceCtorEq, false_or] at hmem
      exact dedupStage_update env job (resolvedTrustTier env job) bodyLen i s hmem

/-- C9: no execution path of the pipeline ever updates an image status to
anything other than `completed` — in particular never to `failed`; the
top-level catch returns `{status: failed}` without an `updateImageStatus`
call. -/
theorem processImage_no_failed_status_update :
    ∀ (env : PipelineEnv) (job : ImageJob) (bks : Buckets) (i s : String),
      Action.updateStatus i s ∈ (processImage env job bks).2.1 → s = "completed" := by
  intro env job bks i s hmem
  cases hs : resolveSource env job with
  | none =>
    simp only [processImage, hs, List.cons_append, List.nil_append,
      List.mem_cons, reduceCtorEq, false_or] at hmem
    exact fetchOnward_update env job i s hmem
  | some src =>
    cases hacq : (tryAcquire (initBucket bks src.id src.maxRps env.nowInit) src.id
        env.nowAcquire).1 with
    | false => simp [processImage, hs, hacq] at hmem
    | true =>
      simp only [processImage, hs, hacq, if_true, List.cons_append, List.nil_append,
        List.mem_cons, reduceCtorEq, false_or] at hmem
      exact fetchOnward_update env job i s hmem

/-- Witness for C9: the fully successful run does perform a status update,
and it is to `completed`. -/
theorem processImage_no_failed_status_update_witness :
    (Action.updateStatus "img1" "completed" ∈
        (processImage envHappy jobW emptyBuckets).2.1) ∧
      "completed" = "completed" :=
  ⟨by decide!, processImage_no_failed_status_update envHappy jobW emptyBuckets
    "img1" "completed" (by decide!)⟩

theorem gateAndReturn_completed (env : PipelineEnv) (job : ImageJob) (sha : String)
    (side2 : SideDetectionResult) (c : Bool)
    (h : (gateAndReturn env job sha side2 c).1.status = "completed") :
    (gateAndReturn env job sha side2 c).1.detectedSide = some side2.side ∧
    (gateAndReturn env job sha side2 c).1.confidence = some side2.confidence ∧
    side2.side = Side.front ∧ minConfidenceForAssignment ≤ side2.confidence ∧
    c = false := by
  by_cases hgate : side2.side = Side.front ∧
      minConfidenceForAssignment ≤ side2.confidence ∧ c = false
  · rcases henv : env.assignErr with _ | msg
    · refine ⟨?_, ?_, hgate.1, hgate.2.1, hgate.2.2⟩ <;>
        simp [gateAndReturn, hgate, henv]
    · simp [gateAndReturn, hgate, henv, failedResult] at h
  · simp [gateAndReturn, hgate] at h

theorem persistStage_completed (env : PipelineEnv) (job : ImageJob) (sha : String)
    (meta : ImageMetadata) (side2 : SideDetectionResult) (c : Bool)
    (h : (persistStage env job sha meta side2 c).1.status = "completed") :
    (persistStage env job sha meta side2 c).1.detectedSide = some side2.side ∧
    (persistStage env job sha meta side2 c).1.confidence = some side2.confidence ∧
    side2.side = Side.front ∧ minConfidenceForAssignment ≤ side2.confidence ∧
    c = false := by
  cases hci : env.createImageErr with
  | some msg => simp [persistStage, hci, failedResult] at h
  | none =>
    cases hgen : generateDerivatives env.sharp sha meta.width with
    | error msg => simp [persistStage, hci, hgen, failedResult] at h
    | ok derivs =>
      cases hup : uploadAll env derivs with
      | some msg => simp [persistStage, hci, hgen, hup, failedResult] at h
      | none =>
        cases hrec : (recordDerivs env env.imageId derivs).2 with
        | some msg => simp [persistStage, hci, hgen, hup, hrec, failedResult] at h
        | none =>
          have hpg : (persistStage env job sha meta side2 c).1 =
              (gateAndReturn env job sha side2 c).1 := by
            simp [persistStage, hci, hgen, hup, hrec]
          rw [hpg] at h ⊢
          exact gateAndReturn_completed env job sha side2 c h

theorem classifyStage_completed (env : PipelineEnv) (job : ImageJob) (tt : ℕ)
    (sha : String) (meta : ImageMetadata)
    (h : (classifyStage env job tt sha meta).1.status = "completed") :
    (classifyStage env job tt sha meta).1.detectedSide =
      some (finalSideResult env tt meta).side ∧
    (classifyStage env job tt sha meta).1.confidence =
      some (finalSideResult env tt meta).confidence ∧
    (finalSideResult env tt meta).side = Side.front ∧
    minConfidenceForAssignment ≤ (finalSideResult env tt meta).confidence ∧
    env.isCollage = false := by
  have hcp : (classifyStage env job tt sha meta).1 =
      (persistStage env job sha meta (finalSideResult env tt meta) env.isCollage).1 := by
    simp [classifyStage]
  rw [hcp] at h ⊢
  exact persistStage_completed env job sha meta (finalSideResult env tt meta)
    env.isCollage h

theorem dedupStage_completed (env : PipelineEnv) (job : ImageJob) (tt : ℕ)
    (bodyLen : ℕ)
    (h : (dedupStage env job tt bodyLen).1.status = "completed") :
    env.isCollage = false ∧
    (dedupStage env job tt bodyLen).1.detectedSide = some Side.front ∧
    ∃ cf, (dedupStage env job tt bodyLen).1.confidence = some cf ∧
      minConfidenceForAssignment ≤ cf := by
  cases hex : env.existing with
  | some existingId =>
    rcases had : env.assignErrDedup with _ | msg <;>
      simp [dedupStage, hex, had, failedResult] at h
  | none =>
    cases hdec : decodeImage env.decodeMeta bodyLen with
    | error msg => simp [dedupStage, hex, hdec, failedResult] at h
    | ok meta =>
      have hdc : (dedupStage env job tt bodyLen).1 =
          (classifyStage env job tt env.sha256 meta).1 := by
        simp [dedupStage, hex, hdec]
      rw [hdc] at h ⊢
      obtain ⟨h1, h2, h3, h4, h5⟩ := classifyStage_completed env job tt env.sha256 meta h
      rw [h3] at h1
      exact ⟨h5, h1, (finalSideResult env tt meta).confidence, h2, h4⟩

theorem fetchOnward_completed (env : PipelineEnv) (job : ImageJob)
    (h : (fetchOnward env job).1.status = "completed") :
    env.isCollage = false ∧
    (fetchOnward env job).1.detectedSide = some Side.front ∧
    ∃ cf, (fetchOnward env job).1.confidence = some cf ∧
      minConfidenceForAssignment ≤ cf := by
  cases hok : (fetchImage env.httpResp (some (resolvedSourceName env job))).ok with
  | false => simp [fetchOnward, hok] at h
  | true =>
    cases hbl : (fetchImage env.httpResp (some (resolvedSourceName env job))).bytesLen with
    | none => simp [fetchOnward, hok, hbl] at h
    | some bodyLen =>
      have hfd : (fetchOnward env job).1 =
          (dedupStage env job (resolvedTrustTier env job) bodyLen).1 := by
        simp [fetchOnward, hok, hbl]
      rw [hfd] at h ⊢
      exact dedupStage_completed env job (resolvedTrustTier env job) bodyLen h

/-- C2: `processImage` returns `completed` only when the assignment gate
holds (final detected side `front`, confidence at least 0.85, not a
collage); and when every processing stage succeeds but the gate fails, it
returns `rejected` with the `Not assigned: side=<s>,
confidence=<c.toFixed(2)>, isCollage=<b>` error string. -/
theorem processImage_assignment_gate :
    (∀ (env : PipelineEnv) (job : ImageJob) (bks : Buckets),
        (processImage env job bks).1.status = "completed" →
        env.isCollage = false ∧
        (processImage env job bks).1.detectedSide = some Side.front ∧
        ∃ cf, (processImage env job bks).1.confidence = some cf ∧
          minConfidenceForAssignment ≤ cf) ∧
    (∀ (env : PipelineEnv) (job : ImageJob) (bks : Buckets) (fr : FetchResult)
        (bodyLen : ℕ) (meta : ImageMetadata) (derivs : List DerivativeResult),
        (∀ s, resolveSource env job = some s → 1 ≤ s.maxRps) →
        env.nowInit ≤ env.nowAcquire →
        fetchImage env.httpResp (some (resolvedSourceName env job)) = fr →
        fr.ok = true → fr.bytesLen = some bodyLen →
        env.existing = none →
        decodeImage env.decodeMeta bodyLen = .ok meta →
        env.createImageErr = none →
        generateDerivatives env.sharp env.sha256 meta.width = .ok derivs →
        uploadAll env derivs = none →
        (recordDerivs env env.imageId derivs).2 = none →
        ¬((finalSideResult env (resolvedTrustTier env job) meta).side = Side.front ∧
          minConfidenceForAssignment ≤
            (finalSideResult env (resolvedTrustTier env job) meta).confidence ∧
          env.isCollage = false) →
        (processImage env job bks).1 =
          { status := "rejected", imageId := some env.imageId,
            sha256 := some env.sha256,
            detectedSide := some (finalSideResult env (resolvedTrustTier env job) meta).side,
            confidence := some (finalSideResult env (resolvedTrustTier env job) meta).confidence,
            error := some ("Not assigned: side=" ++
              (finalSideResult env (resolvedTrustTier env job) meta).side.str ++
              ", confidence=" ++
              toFixed2 (finalSideResult env (resolvedTrustTier env job) meta).confidence ++
              ", isCollage=" ++ boolStr env.isCollage) }) := by
  constructor
  · intro env job bks h
    cases hs : resolveSource env job with
    | none =>
      have hpf : (processImage env job bks).1 = (fetchOnward env job).1 := by
        simp [processImage, hs]
      rw [hpf] at h ⊢
      exact fetchOnward_completed env job h
    | some s =>
      cases hacq : (tryAcquire (initBucket bks s.id s.maxRps env.nowInit) s.id
          env.nowAcquire).1 with
      | false => simp [processImage, hs, hacq] at h
      | true =>
        have hpf : (processImage env job bks).1 = (fetchOnward env job).1 := by
          simp [processImage, hs, hacq]
        rw [hpf] at h ⊢
        exact fetchOnward_completed env job h
  · intro env job bks fr bodyLen meta derivs hsrc hmono hfr hok hbl hex hdec hci
      hgen hup hrec hgate
    have h1 : (processImage env job bks).1 = (fetchOnward env job).1 := by
      cases hs : resolveSource env job with
      | none => simp [processImage, hs]
      | some s =>
        have hacq := acquire_after_init bks s.id s.maxRps env.nowInit env.nowAcquire
          (hsrc s hs) hmono
        simp [processImage, hs, hacq]
    have h2 : (fetchOnward env job).1 =
        (dedupStage env job (resolvedTrustTier env job) bodyLen).1 := by
      simp [fetchOnward, hfr, hok, hbl]
    have h3 : (dedupStage env job (resolvedTrustTier env job) bodyLen).1 =
        (classifyStage env job (resolvedTrustTier env job) env.sha256 meta).1 := by
      simp [dedupStage, hex, hdec]
    have h4 : (classifyStage env job (resolvedTrustTier env job) env.sha256 meta).1 =
        (persistStage env job env.sha256 meta
          (finalSideResult env (resolvedTrustTier env job) meta) env.isCollage).1 := by
      simp [classifyStage]
    have h5 : (persistStage env job env.sha256 meta
        (finalSideResult env (resolvedTrustTier env job) meta) env.isCollage).1 =
        (gateAndReturn env job env.sha256
          (finalSideResult env (resolvedTrustTier env job) meta) env.isCollage).1 := by
      simp [persistStage, hci, hgen, hup, hrec]
    rw [h1, h2, h3, h4, h5]
    simp [gateAndReturn, hgate]

/-- Witness for C2: the no-signal border analysis leaves side `unknown` at
confidence 0.5, and the run ends `rejected` with the formatted error. -/
theorem processImage_assignment_gate_witness :
    (processImage envRej jobW emptyBuckets).1 =
      { status := "rejected", imageId := some "img1", sha256 := some "abcd1234",
        detectedSide := some Side.unknown, confidence := some (1 / 2),
        error := some "Not assigned: side=unknown, confidence=0.50, isCollage=false" } := by
  have h := processImage_assignment_gate.2 envRej jobW emptyBuckets
    ⟨true, some 1000, some "image/jpeg", none, some 200⟩ 1000 ⟨734, 1024, "jpeg", 1000⟩
    [⟨Variant.thumb, 160, 10, 100, getDerivativeStoragePath "abcd1234" "thumb"⟩,
     ⟨Variant.grid, 360, 10, 100, getDerivativeStoragePath "abcd1234" "grid"⟩,
     ⟨Variant.detail, 734, 10, 100, getDerivativeStoragePath "abcd1234" "detail"⟩]
    (fun s hs => by
      rw [show resolveSource envRej jobW = some srcW by decide!] at hs
      cases hs
      exact le_refl 1)
    (by decide) (by decide!) rfl rfl rfl rfl rfl rfl rfl rfl (by decide!)
  rw [h]
  decide!

/-- C8: on a SHA-256 dedup hit the pipeline emits `deduplicated`, calls
`assignImageToCard` with role `primary_front` unconditionally (no check of
the existing image's classification), and returns
`{deduplicated, imageId, sha256}` without decoding, classifying, or
generating derivatives. -/
theorem processImage_dedup_path
    (env : PipelineEnv) (job : ImageJob) (bks : Buckets) (fr : FetchResult)
    (existingId : String) (bodyLen : ℕ)
    (hsrc : ∀ s, resolveSource env job = some s → 1 ≤ s.maxRps)
    (hmono : env.nowInit ≤ env.nowAcquire)
    (hfr : fetchImage env.httpResp (some (resolvedSourceName env job)) = fr)
    (hok : fr.ok = true) (hbl : fr.bytesLen = some bodyLen)
    (hex : env.existing = some existingId)
    (hassign : env.assignErrDedup = none) :
    (processImage env job bks).1 =
      { status := "deduplicated", imageId := some existingId,
        sha256 := some env.sha256 } ∧
    (processImage env job bks).2.1 =
      [Action.logEvent ⟨"fetch_started", some job.sourceUrl, none⟩,
       Action.logEvent ⟨"fetch_completed", none, fr.httpStatus⟩,
       Action.logEvent ⟨"deduplicated", none, none⟩,
       Action.assignCard job.cardId existingId "primary_front"] ∧
    Action.decodeCall ∉ (processImage env job bks).2.1 ∧
    Action.detectSideCall ∉ (processImage env job bks).2.1 ∧
    Action.detectCollageCall ∉ (processImage env job bks).2.1 ∧
    Action.generateDerivativesCall ∉ (processImage env job bks).2.1 ∧
    (∀ sh st sd cf cl, Action.createImage sh st sd cf cl ∉
      (processImage env job bks).2.1) := by
  have hd : dedupStage env job (resolvedTrustTier env job) bodyLen =
      ({ status := "deduplicated", imageId := some existingId,
         sha256 := some env.sha256 },
       [Action.logEvent ⟨"deduplicated", none, none⟩,
        Action.assignCard job.cardId existingId "primary_front"]) := by
    simp [dedupStage, hex, hassign]
  have hfo : fetchOnward env job =
      ({ status := "deduplicated", imageId := some existingId,
         sha256 := some env.sha256 },
       [Action.logEvent ⟨"fetch_completed", none, fr.httpStatus⟩,
        Action.logEvent ⟨"deduplicated", none, none⟩,
        Action.assignCard job.cardId existingId "primary_front"]) := by
    simp [fetchOnward, hfr, hok, hbl, hd]
  have hpr : (processImage env job bks).1 =
        { status := "deduplicated", imageId := some existingId,
          sha256 := some env.sha256 } ∧
      (processImage env job bks).2.1 =
        [Action.logEvent ⟨"fetch_started", some job.sourceUrl, none⟩,
         Action.logEvent ⟨"fetch_completed", none, fr.httpStatus⟩,
         Action.logEvent ⟨"deduplicated", none, none⟩,
         Action.assignCard job.cardId existingId "primary_front"] := by
    cases hs : resolveSource env job with
    | none => exact ⟨by simp [processImage, hs, hfo], by simp [processImage, hs, hfo]⟩
    | some s =>
      have hacq := acquire_after_init bks s.id s.maxRps env.nowInit env.nowAcquire
        (hsrc s hs) hmono
      exact ⟨by simp [processImage, hs, hacq, hfo], by simp [processImage, hs, hacq, hfo]⟩
  refine ⟨hpr.1, hpr.2, ?_, ?_, ?_, ?_, ?_⟩ <;> rw [hpr.2] <;> simp

/-- Witness for C8: the happy-path bytes with a prior image `imgOld`. -/
theorem processImage_dedup_path_witness :
    (processImage envDedup jobW emptyBuckets).1 =
      { status := "deduplicated", imageId := some "imgOld",
        sha256 := some "abcd1234" } ∧
    (processImage envDedup jobW emptyBuckets).2.1 =
      [Action.logEvent ⟨"fetch_started", some "http://x/a.jpg", none⟩,
       Action.logEvent ⟨"fetch_completed", none, some 200⟩,
       Action.logEvent ⟨"deduplicated", none, none⟩,
       Action.assignCard "c1" "imgOld" "primary_front"] ∧
    Action.decodeCall ∉ (processImage envDedup jobW emptyBuckets).2.1 ∧
    Action.detectSideCall ∉ (processImage envDedup jobW emptyBuckets).2.1 ∧
    Action.detectCollageCall ∉ (processImage envDedup jobW emptyBuckets).2.1 ∧
    Action.generateDerivativesCall ∉ (processImage envDedup jobW emptyBuckets).2.1 ∧
    (∀ sh st sd cf cl, Action.createImage sh st sd cf cl ∉
      (processImage envDedup jobW emptyBuckets).2.1) :=
  processImage_dedup_path envDedup jobW emptyBuckets
    ⟨true, some 1000, some "image/jpeg", none, some 200⟩ "imgOld" 1000
    (fun s hs => by
      rw [show resolveSource envDedup jobW = some srcW by decide!] at hs
      cases hs
      exact le_refl 1)
    (by decide) (by decide!) rfl rfl rfl rfl

/-- C1 (the spec scenario the code does not satisfy): a source with
`maxRps = 1` and two back-to-back jobs, the second 100 ms after the first.
Because `processImage` re-inits the bucket to full before each acquire,
the second call is not rate limited: it proceeds to the fetch and returns
`failed` (the fetch errors in this environment), not `rate_limited`. -/
theorem rate_limit_reset_second_call :
    (processImage envNetErr jobW emptyBuckets).1.status = "failed" ∧
    (processImage envNetErrLater jobW
        (processImage envNetErr jobW emptyBuckets).2.2).1.status = "failed" ∧
    (processImage envNetErrLater jobW
        (processImage envNetErr jobW emptyBuckets).2.2).1.status ≠ "rate_limited" ∧
    (processImage envNetErrLater jobW
        (processImage envNetErr jobW emptyBuckets).2.2).1.error ≠
      some "Rate limited, retry after 1000ms" := by
  refine ⟨by decide!, by decide!, by decide!, by decide!⟩

/-- C5: a 2xx response with an `image/*` content type whose body length is
listed in `KNOWN_ERROR_PAYLOADS` for the named source is turned into
`{ok: false, error: "known_error_payload"}`. -/
theorem fetchImage_known_error_payload
    (r : HttpResponse) (sourceName : String) (sizes : List ℕ)
    (h2xx : 200 ≤ r.status) (h2xx2 : r.status < 300)
    (hct : (r.contentType.getD "").startsWith "image/" = true)
    (htab : KNOWN_ERROR_PAYLOADS sourceName = some sizes)
    (hlen : r.bodyLen ∈ sizes) :
    fetchImage (.ok r) (some sourceName) =
      ⟨false, none, none, some "known_error_payload", some r.status⟩ := by
  have hok : r.respOk = true := by
    simp [HttpResponse.respOk]
    exact ⟨h2xx, h2xx2⟩
  have hk : isKnownErrorPayload r.bodyLen sourceName = true := by
    simpa [isKnownErrorPayload, htab] using hlen
  simp [fetchImage, hok, hct, hk]

/-- Witness for C5: the preloaded entry, `pokemontcg_api` with a 186316-byte
200 response. -/
theorem fetchImage_known_error_payload_witness :
    fetchImage (.ok ⟨200, some "image/png", 186316⟩) (some "pokemontcg_api") =
      ⟨false, none, none, some "known_error_payload", some 200⟩ :=
  fetchImage_known_error_payload ⟨200, some "image/png", 186316⟩ "pokemontcg_api"
    [186316] (by decide) (by decide) (by decide!) (by decide!) (by decide)

/-- C6: `shouldRunVisionCheck` never runs for tier 1, always runs for
tier 3, and always runs for tier 2 when the current confidence lies in
`[0.6, 0.9)`. -/
theorem shouldRunVisionCheck_tier_policy :
    ∀ (conf : ℚ) (rnd : Bool),
      shouldRunVisionCheck 1 conf rnd = false ∧
      shouldRunVisionCheck 3 conf rnd = true ∧
      (6 / 10 ≤ conf → conf < 9 / 10 → shouldRunVisionCheck 2 conf rnd = true) := by
  intro conf rnd
  refine ⟨rfl, rfl, fun h1 h2 => ?_⟩
  simp [shouldRunVisionCheck, visionCheckLowerBound, visionCheckUpperBound, h1, h2]

/-- Witness for C6 at confidence 0.7. -/
theorem shouldRunVisionCheck_tier_policy_witness :
    (6 / 10 ≤ (7 : ℚ) / 10) ∧ ((7 : ℚ) / 10 < 9 / 10) ∧
      shouldRunVisionCheck 2 (7 / 10) false = true :=
  ⟨by decide!, by decide!,
    (shouldRunVisionCheck_tier_policy (7 / 10) false).2.2 (by decide!) (by decide!)⟩

/-- C10: every `SideDetectionResult` produced by the heuristic side
detector or the vision checker — on every path, including error and
fallback paths — has confidence in `[0, 1]`. -/
theorem sideDetection_confidence_in_unit_interval :
    ∀ (w h : ℕ) (ba : Option BorderAnalysis) (oc : VisionOutcome),
      (0 ≤ (detectSide w h ba).confidence ∧ (detectSide w h ba).confidence ≤ 1) ∧
      (0 ≤ (checkWithVision oc).confidence ∧ (checkWithVision oc).confidence ≤ 1) := by
  intro w h ba oc
  have key : ∀ score : ℚ,
      0 ≤ (if 3 / 10 ≤ score then
              (⟨Side.front, min (95 / 100) (1 / 2 + score), "heuristic"⟩ :
                SideDetectionResult)
            else if score ≤ -(3 / 10) then
              ⟨Side.back, min (95 / 100) (1 / 2 + |score|), "heuristic"⟩
            else ⟨Side.unknown, 1 / 2, "heuristic"⟩).confidence ∧
        (if 3 / 10 ≤ score then
              (⟨Side.front, min (95 / 100) (1 / 2 + score), "heuristic"⟩ :
                SideDetectionResult)
            else if score ≤ -(3 / 10) then
              ⟨Side.back, min (95 / 100) (1 / 2 + |score|), "heuristic"⟩
            else ⟨Side.unknown, 1 / 2, "heuristic"⟩).confidence ≤ 1 := by
    intro score
    split_ifs with h1 h2
    · exact ⟨le_min (by norm_num) (by linarith),
        (min_le_left _ _).trans (by norm_num)⟩
    · exact ⟨le_min (by norm_num) (by positivity),
        (min_le_left _ _).trans (by norm_num)⟩
    · exact ⟨by norm_num, by norm_num⟩
  constructor
  · cases ba with
    | none => exact ⟨by norm_num [detectSide], by norm_num [detectSide]⟩
    | some ba =>
      simp only [detectSide]
      exact key _
  · cases oc with
    | reply content =>
      simp only [checkWithVision]
      split_ifs <;> exact ⟨by norm_num, by norm_num⟩
    | noApiKey => exact ⟨by norm_num [checkWithVision], by norm_num [checkWithVision]⟩
    | requestFailed => exact ⟨by norm_num [checkWithVision], by norm_num [checkWithVision]⟩
    | exn => exact ⟨by norm_num [checkWithVision], by norm_num [checkWithVision]⟩

/-- C4: `tryAcquire` for a missing bucket allows and leaves the map
unchanged; for an existing bucket it refills `floor(elapsedSeconds ×
refillRate)` tokens capped at capacity, then answers whether a token was
available and debits exactly one token in that case (no debit otherwise). -/
theorem tryAcquire_spec :
    (∀ (bks : Buckets) (sid : String) (now : ℤ),
        bks sid = none → tryAcquire bks sid now = (true, bks)) ∧
    (∀ (bks : Buckets) (sid : String) (now : ℤ) (b : TokenBucket) (refTok : ℚ),
        bks sid = some b → b.lastRefill ≤ now → b.tokens ≤ b.maxTokens →
        0 ≤ b.refillRate →
        refTok = min b.maxTokens
          (b.tokens + (⌊((now - b.lastRefill : ℤ) : ℚ) / 1000 * b.refillRate⌋ : ℚ)) →
        (tryAcquire bks sid now).1 = decide (0 < refTok) ∧
        ((tryAcquire bks sid now).2 sid).map TokenBucket.tokens =
          some (if 0 < refTok then refTok - 1 else refTok)) := by
  constructor
  · intro bks sid now h
    simp [tryAcquire, h]
  · intro bks sid now b refTok hb hle htok hrate hrt
    simp only [tryAcquire, hb]
    set fl : ℤ := ⌊((now - b.lastRefill : ℤ) : ℚ) / 1000 * b.refillRate⌋ with hfldef
    have hel : (0 : ℚ) ≤ ((now - b.lastRefill : ℤ) : ℚ) / 1000 * b.refillRate := by
      apply mul_nonneg _ hrate
      apply div_nonneg _ (by norm_num)
      exact_mod_cast Int.sub_nonneg.mpr hle
    have hfl : 0 ≤ fl := Int.le_floor.mpr (by exact_mod_cast hel)
    have hb1 : (if 0 < fl then
          (⟨min b.maxTokens (b.tokens + (fl : ℚ)), now, b.maxTokens, b.refillRate⟩ :
            TokenBucket)
        else b).tokens = refTok := by
      rcases lt_or_eq_of_le hfl with hpos | hzero
      · rw [if_pos hpos, hrt]
      · rw [if_neg (by omega), hrt, ← hzero]
        simp [min_eq_right htok]
    rw [hb1]
    by_cases h0 : 0 < refTok
    · rw [if_pos h0]
      refine ⟨by simp [h0], ?_⟩
      dsimp only
      rw [buckets_set_self]
      simp [h0]
    · rw [if_neg h0]
      refine ⟨by simp [h0], ?_⟩
      dsimp only
      rw [buckets_set_self]
      simp [h0, hb1]

/-- Witness for C4: a bucket with one token, queried one second later. -/
theorem tryAcquire_spec_witness :
    (tryAcquire (Buckets.set emptyBuckets "s1" ⟨1, 0, 1, 1⟩) "s1" 1000).1 = true ∧
      ((tryAcquire (Buckets.set emptyBuckets "s1" ⟨1, 0, 1, 1⟩) "s1" 1000).2 "s1").map
          TokenBucket.tokens = some 0 := by
  have h := tryAcquire_spec.2 (Buckets.set emptyBuckets "s1" ⟨1, 0, 1, 1⟩) "s1" 1000
    ⟨1, 0, 1, 1⟩ 1
    (buckets_set_self _ _ _) (by decide) (by decide!) (by decide!) (by decide!)
  refine ⟨h.1.trans (by decide!), h.2.trans (by decide!)⟩

/-- C7: every derivative produced by `generateDerivatives` has a recorded
width of at most `min(variant target width, original width)` — derivatives
are never upscaled beyond the original. The hypothesis is sharp's
fit-inside / withoutEnlargement contract: the measured output width never
exceeds the requested resize width. -/
theorem generateDerivatives_no_upscale
    (so : SharpOracle) (sha : String) (origW : ℕ)
    (hso : ∀ v r w, so.resizedWidth v r = some w → w ≤ r)
    (ds : List DerivativeResult)
    (hgen : generateDerivatives so sha origW = .ok ds) :
    ∀ d ∈ ds, d.width ≤ min (derivativeSizes d.variant).width origW := by
  have hone : ∀ (v : Variant),
      jsOrNat (so.resizedWidth v (min (derivativeSizes v).width origW))
        (min (derivativeSizes v).width origW) ≤ min (derivativeSizes v).width origW := by
    intro v
    cases hw : so.resizedWidth v (min (derivativeSizes v).width origW) with
    | none => simp [jsOrNat]
    | some w =>
      by_cases h0 : w = 0
      · simp [jsOrNat, h0]
      · simp only [jsOrNat, if_neg h0]
        exact hso v _ w hw
  revert hgen
  simp only [generateDerivatives, generateDerivAux]
  cases h1 : so.resizeErr Variant.thumb <;>
    cases h2 : so.resizeErr Variant.grid <;>
      cases h3 : so.resizeErr Variant.detail <;>
        intro hgen <;> simp only [reduceCtorEq] at hgen
  rw [Except.ok.injEq] at hgen
  subst hgen
  intro d hd
  simp only [List.mem_cons, List.not_mem_nil, or_false] at hd
  rcases hd with h | h | h
  · subst h; exact hone Variant.thumb
  · subst h; exact hone Variant.grid
  · subst h; exact hone Variant.detail

/-- Witness for C7: an identity-resize oracle over a 200-pixel-wide
original caps thumb at 160 and grid/detail at 200. -/
theorem generateDerivatives_no_upscale_witness :
    ((⟨Variant.thumb, 160, 10, 100, getDerivativeStoragePath "ab" "thumb"⟩ :
        DerivativeResult).width ≤ min (derivativeSizes Variant.thumb).width 200) ∧
    ((⟨Variant.detail, 200, 10, 100, getDerivativeStoragePath "ab" "detail"⟩ :
        DerivativeResult).width ≤ min (derivativeSizes Variant.detail).width 200) := by
  have h := generateDerivatives_no_upscale sharpW "ab" 200
    (fun v r w hw => by simp [sharpW] at hw; omega)
    [⟨Variant.thumb, 160, 10, 100, getDerivativeStoragePath "ab" "thumb"⟩,
     ⟨Variant.grid, 200, 10, 100, getDerivativeStoragePath "ab" "grid"⟩,
     ⟨Variant.detail, 200, 10, 100, getDerivativeStoragePath "ab" "detail"⟩] rfl
  exact ⟨h _ (by simp), h _ (by simp)⟩

end ImageWorker
